import Mathlib

/-!
Shallow embedding of the FelixSeptem/errgroup package (Go):
`errgroup.go` (the group controller) and `retry_opts.go` (backoff strategies).

Conventions of the embedding:
* Go `time.Duration` and `int64` are modelled as `Int`; the sentinel
  `backoff.Stop` is the value `-1`, as in the Go library.
* Failure values (`error`) are modelled by the inductive `GoError`;
  `GoError.canceled` stands for `context.Canceled`, the synthetic failure
  produced when semaphore acquisition aborts.
* Stateful Go methods become pure functions returning the new state.
* The spawned goroutines mutate only mutex- or atomic-protected state
  (the error channel under `errCh.mu`, the `sync.WaitGroup` counter, the
  `sync.Once` guarded cancel), so a group execution is modelled as a
  serialized trace: a list of per-unit execution records folded over the
  group state, one unit at a time, in an arbitrary order chosen by the trace.
-/

namespace Errgroup

/-- Failure values (`error` in Go). `canceled` is `context.Canceled`, returned
by `semaphore.Weighted.Acquire` when the context is cancelled first; `taskErr n`
ranges over opaque task-produced failures. -/
inductive GoError where
  | canceled : GoError
  | taskErr : Nat → GoError
deriving DecidableEq, Repr

/-! ## retry_opts.go -/

/-- `concurrenyControl` (sic, the source's spelling): attempt budget shared by
all three backoff strategies. -/
structure concurrenyControl where
  maxRetries : Int
  remainRetries : Int
deriving DecidableEq, Repr

/-- `zeroBackoff`: the no-delay strategy. -/
structure zeroBackoff where
  cc : concurrenyControl
deriving DecidableEq, Repr

/-- `func (z *zeroBackoff) NextBackOff() time.Duration`: if budget remains,
decrement it and return duration `0`; otherwise return `-1` (`backoff.Stop`). -/
def zeroBackoff.NextBackOff (z : zeroBackoff) : Int × zeroBackoff :=
  if 0 < z.cc.remainRetries then
    (0, { z with cc := { z.cc with remainRetries := z.cc.remainRetries - 1 } })
  else
    (-1, z)

/-- `func (z *zeroBackoff) Reset()`: restore the budget to `maxRetries`. -/
def zeroBackoff.Reset (z : zeroBackoff) : zeroBackoff :=
  { z with cc := { z.cc with remainRetries := z.cc.maxRetries } }

/-- `constantBackoff`: the fixed-delay strategy. -/
structure constantBackoff where
  interval : Int
  cc : concurrenyControl
deriving DecidableEq, Repr

/-- `func (c *constantBackoff) NextBackOff() time.Duration`: if budget remains,
decrement it and return the configured interval; otherwise `-1` (stop). -/
def constantBackoff.NextBackOff (c : constantBackoff) : Int × constantBackoff :=
  if 0 < c.cc.remainRetries then
    (c.interval, { c with cc := { c.cc with remainRetries := c.cc.remainRetries - 1 } })
  else
    (-1, c)

/-- `func (c *constantBackoff) Reset()`. -/
def constantBackoff.Reset (c : constantBackoff) : constantBackoff :=
  { c with cc := { c.cc with remainRetries := c.cc.maxRetries } }

/-- `exponentialBackoff`: wraps `backoff.ExponentialBackOff` from the external
cenkalti/backoff dependency. The curve's internal state (current interval,
multiplier, jitter, elapsed-time clock) lives outside this repository, so it is
kept abstract as a type `σ`; its `NextBackOff`/`Reset` methods are passed in as
functions wherever the wrapper's methods delegate to them. -/
structure exponentialBackoff (σ : Type) where
  eb : σ
  cc : concurrenyControl
deriving DecidableEq, Repr

/-- `func (e *exponentialBackoff) NextBackOff() time.Duration`: if budget
remains, decrement it and return `e.eb.NextBackOff()` (which also advances the
curve state); otherwise `-1` (stop), with the curve untouched. -/
def exponentialBackoff.NextBackOff {σ : Type} (ebNext : σ → Int × σ)
    (e : exponentialBackoff σ) : Int × exponentialBackoff σ :=
  if 0 < e.cc.remainRetries then
    ((ebNext e.eb).fst,
      { eb := (ebNext e.eb).snd,
        cc := { e.cc with remainRetries := e.cc.remainRetries - 1 } })
  else
    (-1, e)

/-- `func (e *exponentialBackoff) Reset()`: restore the budget and reset the
curve via `e.eb.Reset()` (passed in as `ebReset`). -/
def exponentialBackoff.Reset {σ : Type} (ebReset : σ → σ)
    (e : exponentialBackoff σ) : exponentialBackoff σ :=
  { eb := ebReset e.eb,
    cc := { e.cc with remainRetries := e.cc.maxRetries } }

/-- `func NewZeroBackoff(maxRetries int64) *zeroBackoff`. -/
def NewZeroBackoff (maxRetries : Int) : zeroBackoff :=
  ⟨⟨maxRetries, maxRetries⟩⟩

/-- `func NewConstantBackoff(maxRetries int64, interval time.Duration)`. -/
def NewConstantBackoff (maxRetries : Int) (interval : Int) : constantBackoff :=
  ⟨interval, ⟨maxRetries, maxRetries⟩⟩

/-- `func NewExponentialBackoff(maxRetries int64) *exponentialBackoff`: the Go
code sets `eb` to `backoff.NewExponentialBackOff()`; that freshly constructed
external curve state is the parameter `eb0`. -/
def NewExponentialBackoff {σ : Type} (maxRetries : Int) (eb0 : σ) :
    exponentialBackoff σ :=
  ⟨eb0, ⟨maxRetries, maxRetries⟩⟩

/-- Results of `n` successive `NextBackOff` calls on a `zeroBackoff`. -/
def zeroSeq : Nat → zeroBackoff → List Int
  | 0, _ => []
  | n + 1, z => (z.NextBackOff).fst :: zeroSeq n (z.NextBackOff).snd

/-- Results of `n` successive `NextBackOff` calls on a `constantBackoff`. -/
def constSeq : Nat → constantBackoff → List Int
  | 0, _ => []
  | n + 1, c => (c.NextBackOff).fst :: constSeq n (c.NextBackOff).snd

/-- Results of `n` successive `NextBackOff` calls on an `exponentialBackoff`,
with the external curve's `NextBackOff` given by `ebNext`. -/
def expoSeq {σ : Type} (ebNext : σ → Int × σ) :
    Nat → exponentialBackoff σ → List Int
  | 0, _ => []
  | n + 1, e =>
    (e.NextBackOff ebNext).fst :: expoSeq ebNext n (e.NextBackOff ebNext).snd

/-- Modelled from the spec: the retry driver `backoff.Retry` of the external
cenkalti/backoff dependency (its source is not in this repository); spec §4.2:
repeatedly invoke the task; on success stop and propagate success; after a
failing attempt query the policy — stop signal (`-1`) propagates the last
failure, a duration means sleep and retry. `f i` is attempt number `i`'s
result (`none` = success). The loop is driven by explicit `fuel` (the real
loop need not terminate); the result pairs the propagated outcome with the
number of attempts made, and is `none` iff the fuel ran out. -/
def retryLoop {σ : Type} (next : σ → Int × σ) (f : Nat → Option GoError) :
    Nat → σ → Nat → Option (Option GoError × Nat)
  | 0, _, _ => none
  | fuel + 1, b, i =>
    match f i with
    | none => some (none, i + 1)
    | some e =>
      if (next b).fst = -1 then some (some e, i + 1)
      else retryLoop next f fuel (next b).snd (i + 1)

/-! ## errgroup.go -/

/-- `RetryMode`. -/
inductive RetryMode where
  | Zero : RetryMode
  | Constant : RetryMode
  | Exponential : RetryMode
deriving DecidableEq, Repr

/-- `RetryOption`: per-call retry configuration. `wrapped` is the private flag
the wrapper's `defer` sets to `true`. -/
structure RetryOption where
  Mode : RetryMode
  Interval : Int
  MaxRetries : Int
  wrapped : Bool := false
deriving DecidableEq, Repr

/-- `errCh`: the bounded error collector — a buffered channel of capacity
`cap` (Go: `make(chan error, maxErrs)`) holding `buf`, guarded by `mu`. -/
structure errCh where
  cap : Nat
  buf : List GoError
deriving DecidableEq, Repr

/-- The mutex-guarded insertion both failure paths of `group.Go` perform:
`if len(g.err.errs)-cap(g.err.errs) > 0 { g.err.errs <- err }`.
`len` is the number of buffered elements and `cap` the channel capacity,
translated verbatim: the send happens only when `len - cap > 0`. -/
def errCh.record (c : errCh) (e : GoError) : errCh :=
  if 0 < (c.buf.length : Int) - (c.cap : Int) then { c with buf := c.buf ++ [e] }
  else c

/-- `group`: configuration fields of the Go struct plus the state its
synchronization primitives carry at runtime: `pending` is the
`sync.WaitGroup` counter, `cancelled` the derived context's cancel flag,
`onceDone` the `sync.Once` (`errOnce`) flag, and `crashed` records that some
goroutine panicked (a Go goroutine panic kills the whole process). -/
structure group where
  sema : Option Int
  waitAll : Bool
  err : Option errCh
  retryMode : Option RetryOption
  pending : Nat
  cancelled : Bool
  onceDone : Bool
  crashed : Bool
deriving DecidableEq, Repr

/-- `func NewGroupWithContext(ctx, maxConcurrency, waitAll, retryMode, maxErrs)`:
a semaphore only when `maxConcurrency > 0`, a collector (empty, capacity
`maxErrs`) only when `maxErrs > 0`. -/
def NewGroupWithContext (maxConcurrency : Int) (waitAll : Bool)
    (retryMode : Option RetryOption) (maxErrs : Int) : group :=
  { sema := if 0 < maxConcurrency then some maxConcurrency else none,
    waitAll := waitAll,
    err := if 0 < maxErrs then some ⟨maxErrs.toNat, []⟩ else none,
    retryMode := retryMode,
    pending := 0,
    cancelled := false,
    onceDone := false,
    crashed := false }

/-- How one spawned unit's two external interactions resolved: `acq` is the
outcome of `g.sema.Acquire(g.ctx, 1)` (consulted only when a semaphore
exists; `cancelled` = the context was cancelled before a permit was free),
and `taskErr` the outcome of `fun()` when it runs (`none` = success). -/
structure UnitExec where
  acq : Bool
  taskErr : Option GoError
deriving DecidableEq, Repr

/-- `if g.err != nil { g.err.mu.Lock(); ...record...; g.err.mu.Unlock() }`:
the guarded insertion applied to the group's collector, if one exists. -/
def recordFailure (g : group) (e : GoError) : group :=
  { g with err := g.err.map (fun (c : errCh) => c.record e) }

/-- `if err := fun(); err != nil { ...record err... }`. -/
def recordTask (g : group) (te : Option GoError) : group :=
  match te with
  | some e => recordFailure g e
  | none => g

/-- `if !g.waitAll { g.errOnce.Do(func() { g.cancel() }) }` — `sync.Once`
runs its function only the first time, so the cancel fires at most once. -/
def tryCancelOnce (g : group) : group :=
  if !g.waitAll && !g.onceDone then { g with cancelled := true, onceDone := true }
  else g

/-- The deferred `g.wg.Done()` (the semaphore release alongside it does not
touch any state this model tracks). -/
def finishUnit (g : group) : group :=
  { g with pending := g.pending - 1 }

/-- The body of the goroutine spawned by `group.Go`, translated branch by
branch from the source:
1. with a semaphore, a failed `Acquire` records the context error through the
   guarded insertion and `return`s — before the `defer` that performs
   `wg.Done()` is registered, so `pending` is not decremented on this path;
2. `fun()` runs next; when `retryMode == nil` no function was ever assigned to
   `fun`, so the call is a nil-function panic: the deferred release and
   `wg.Done()` run during unwinding and then the process dies (`crashed`);
3. a non-nil `fun()` result is recorded through the guarded insertion;
4. `if !g.waitAll { g.errOnce.Do(func() { g.cancel() }) }` — note the source
   runs this after every completed `fun()`, failed or not;
5. the deferred `wg.Done()` decrements `pending`. -/
def runUnit (g : group) (u : UnitExec) : group :=
  if g.sema.isSome && !u.acq then
    recordFailure g GoError.canceled
  else
    match g.retryMode with
    | none => { g with pending := g.pending - 1, crashed := true }
    | some _ => finishUnit (tryCancelOnce (recordTask g u.taskErr))

/-- `func (g *group) Go(f func() error)`: `wg.Add(1)` on the caller's side,
then the spawned unit runs (`runUnit` is its whole lifetime, serialized). A
crashed process runs nothing further. -/
def groupGo (g : group) (u : UnitExec) : group :=
  if g.crashed then g else runUnit { g with pending := g.pending + 1 } u

/-- A whole serialized execution: submissions folded left over the group. -/
def groupRun (g : group) (us : List UnitExec) : group :=
  us.foldl groupGo g

/-- `func (g *group) Wait() chan error`: `g.wg.Wait()` blocks until `pending`
is zero (so the returned pair describes the state at that moment), then
`g.cancel()` fires, and the error channel's contents are returned — `none`
models the literal `nil` returned when no collector was configured. -/
def groupWait (g : group) : Option (List GoError) × group :=
  (g.err.map errCh.buf, { g with cancelled := true })

/-! ## Helper lemmas about group executions -/

lemma recordFailure_fields (g : group) (e : GoError) :
    (recordFailure g e).waitAll = g.waitAll ∧
    (recordFailure g e).cancelled = g.cancelled ∧
    (recordFailure g e).onceDone = g.onceDone ∧
    (recordFailure g e).err.isSome = g.err.isSome := by
  refine ⟨rfl, rfl, rfl, ?_⟩
  simp [recordFailure]

lemma recordTask_fields (g : group) (te : Option GoError) :
    (recordTask g te).waitAll = g.waitAll ∧
    (recordTask g te).cancelled = g.cancelled ∧
    (recordTask g te).onceDone = g.onceDone ∧
    (recordTask g te).err.isSome = g.err.isSome := by
  cases te with
  | none => exact ⟨rfl, rfl, rfl, rfl⟩
  | some e => exact recordFailure_fields g e

lemma tryCancelOnce_waitAll (g : group) :
    (tryCancelOnce g).waitAll = g.waitAll := by
  unfold tryCancelOnce
  split <;> rfl

lemma tryCancelOnce_errIsSome (g : group) :
    (tryCancelOnce g).err.isSome = g.err.isSome := by
  unfold tryCancelOnce
  split <;> rfl

lemma tryCancelOnce_cancelled_of_waitAll (g : group) (h : g.waitAll = true) :
    (tryCancelOnce g).cancelled = g.cancelled := by
  unfold tryCancelOnce
  split
  · simp_all
  · rfl

lemma runUnit_waitAll (g : group) (u : UnitExec) :
    (runUnit g u).waitAll = g.waitAll := by
  unfold runUnit
  split
  · exact (recordFailure_fields g _).1
  · split
    · rfl
    · show (tryCancelOnce (recordTask g u.taskErr)).waitAll = _
      rw [tryCancelOnce_waitAll, (recordTask_fields g _).1]

lemma runUnit_errIsSome (g : group) (u : UnitExec) :
    (runUnit g u).err.isSome = g.err.isSome := by
  unfold runUnit
  split
  · exact (recordFailure_fields g _).2.2.2
  · split
    · rfl
    · show (tryCancelOnce (recordTask g u.taskErr)).err.isSome = _
      rw [tryCancelOnce_errIsSome, (recordTask_fields g _).2.2.2]

lemma runUnit_cancelled_of_waitAll (g : group) (u : UnitExec)
    (h : g.waitAll = true) : (runUnit g u).cancelled = g.cancelled := by
  unfold runUnit
  split
  · exact (recordFailure_fields g _).2.1
  · split
    · rfl
    · show (tryCancelOnce (recordTask g u.taskErr)).cancelled = _
      rw [tryCancelOnce_cancelled_of_waitAll _ ((recordTask_fields g _).1.trans h),
        (recordTask_fields g _).2.1]

lemma groupGo_waitAll (g : group) (u : UnitExec) :
    (groupGo g u).waitAll = g.waitAll := by
  unfold groupGo
  split
  · rfl
  · exact runUnit_waitAll _ _

lemma groupGo_errIsSome (g : group) (u : UnitExec) :
    (groupGo g u).err.isSome = g.err.isSome := by
  unfold groupGo
  split
  · rfl
  · exact runUnit_errIsSome _ _

lemma groupGo_cancelled_of_waitAll (g : group) (u : UnitExec)
    (h : g.waitAll = true) : (groupGo g u).cancelled = g.cancelled := by
  unfold groupGo
  split
  · rfl
  · exact runUnit_cancelled_of_waitAll _ _ h

lemma groupRun_cancelled_of_waitAll (us : List UnitExec) (g : group)
    (h : g.waitAll = true) : (groupRun g us).cancelled = g.cancelled := by
  induction us generalizing g with
  | nil => rfl
  | cons u us ih =>
    have hw := groupGo_waitAll g u
    rw [groupRun, List.foldl_cons]
    rw [show (us.foldl groupGo (groupGo g u)) = groupRun (groupGo g u) us from rfl]
    rw [ih _ (hw.trans h), groupGo_cancelled_of_waitAll _ _ h]

lemma groupRun_errIsSome (us : List UnitExec) (g : group) :
    (groupRun g us).err.isSome = g.err.isSome := by
  induction us generalizing g with
  | nil => rfl
  | cons u us ih =>
    rw [groupRun, List.foldl_cons]
    rw [show (us.foldl groupGo (groupGo g u)) = groupRun (groupGo g u) us from rfl]
    rw [ih, groupGo_errIsSome]

/-! ## Claim theorems -/

/-- A concrete retry configuration used by the closed executions below. -/
def opt0 : RetryOption := ⟨RetryMode.Zero, 0, 0, false⟩

/-- C1: the claim says that with error capacity `N = 3` and `M = 5` failed
tasks, the failure sequence returned by `Wait()` has length exactly `3`. In
the code the guarded insertion `if len(g.err.errs)-cap(g.err.errs) > 0` can
never fire (a channel never holds more than its capacity), so after five
distinct task failures the collector `Wait()` returns is still empty: the
failure sequence has length `0`, not `3`. -/
theorem C1_collector_never_records :
    (groupWait (groupRun (NewGroupWithContext 0 true (some opt0) 3)
      [⟨true, some (GoError.taskErr 1)⟩, ⟨true, some (GoError.taskErr 2)⟩,
       ⟨true, some (GoError.taskErr 3)⟩, ⟨true, some (GoError.taskErr 4)⟩,
       ⟨true, some (GoError.taskErr 5)⟩])).fst = some [] := rfl

/-- C2: a unit whose semaphore acquisition is aborted by cancellation exits
with `return` before the `defer` holding `wg.Done()` is registered, so its
`Go` call is never matched by a decrement. Concretely: fail-fast group
(`waitAll = false`) with `maxConcurrency = 1`; the first submitted task
completes (triggering the cancellation signal), the second unit's acquire is
then aborted by that cancellation and exits early — the pending counter is
left at `1`, so `Wait()` can never observe zero. -/
theorem C2_pending_counter_leaks :
    (groupRun (NewGroupWithContext 1 false (some opt0) 1)
      [⟨true, none⟩, ⟨false, none⟩]).pending = 1 ∧
    (groupRun (NewGroupWithContext 1 false (some opt0) 1)
      [⟨true, none⟩, ⟨false, none⟩]).cancelled = true := ⟨rfl, rfl⟩

/-- C3: in fail-fast mode (`waitAll = false`) the source runs
`g.errOnce.Do(func() { g.cancel() })` after every completed task, outside the
`err != nil` branch: a single task that completes successfully already
triggers the cancellation signal before `Wait()` runs, contradicting the
claim that only a failure triggers it. -/
theorem C3_cancel_fires_on_success :
    (groupRun (NewGroupWithContext 0 false (some opt0) 1)
      [⟨true, none⟩]).cancelled = true := rfl

/-- C4: with `retryMode == nil` the local variable `fun` in `group.Go` is
never assigned, so the spawned unit calls a nil function value: the goroutine
panics and kills the process instead of running the task exactly once. -/
theorem C4_nil_retryMode_crashes :
    (groupRun (NewGroupWithContext 0 true none 1)
      [⟨true, none⟩]).crashed = true := rfl

/-- C5: in run-to-completion mode (`waitAll = true`) no unit execution ever
triggers the cancellation signal: after an arbitrary serialized trace of
submissions (failed tasks included) the derived context is still uncancelled,
and the `Wait()` call — which returns only once the pending counter has
drained to zero — is what triggers it. -/
theorem C5_run_to_completion_cancels_only_in_wait (mc me : Int)
    (rm : Option RetryOption) (us : List UnitExec) :
    (groupRun (NewGroupWithContext mc true rm me) us).cancelled = false ∧
    (groupWait (groupRun (NewGroupWithContext mc true rm me) us)).snd.cancelled
      = true := by
  refine ⟨?_, rfl⟩
  rw [groupRun_cancelled_of_waitAll us _ rfl]
  rfl

/-- C8: the value `Wait()` hands back is `nil` (modelled `none`) exactly when
the group was constructed with `maxErrs ≤ 0`; otherwise it is the collector
channel with its buffered contents, whatever trace was executed — so "no
error tracking requested" and "zero errors occurred" stay distinguishable. -/
theorem C8_wait_distinguishes_absent_collector (mc : Int) (wa : Bool)
    (rm : Option RetryOption) (me : Int) (us : List UnitExec) :
    ((groupWait (groupRun (NewGroupWithContext mc wa rm me) us)).fst = none
      ↔ me ≤ 0) ∧
    (groupWait (groupRun (NewGroupWithContext mc wa rm me) us)).fst
      = ((groupRun (NewGroupWithContext mc wa rm me) us).err.map errCh.buf) := by
  refine ⟨?_, rfl⟩
  have h := groupRun_errIsSome us (NewGroupWithContext mc wa rm me)
  have h0 : (NewGroupWithContext mc wa rm me).err.isSome = decide (0 < me) := by
    unfold NewGroupWithContext
    dsimp only
    split
    · simp_all
    · simp_all
  rw [h0] at h
  show ((groupRun (NewGroupWithContext mc wa rm me) us).err.map errCh.buf
    = none ↔ me ≤ 0)
  cases hcase : (groupRun (NewGroupWithContext mc wa rm me) us).err with
  | none =>
    rw [hcase] at h
    constructor
    · intro _
      by_contra hme
      have : 0 < me := by omega
      simp [this] at h
    · intro _
      rfl
  | some cch =>
    rw [hcase] at h
    constructor
    · intro habs
      exact absurd habs (by simp)
    · intro hme
      have : ¬ 0 < me := by omega
      simp [this] at h

/-! ## Retry budget lemmas -/

/-- Generic retry exhaustion: a strategy that, measured by `μ` on states
satisfying the invariant `P`, signals stop exactly at budget zero and
otherwise decrements, makes the always-failing task run `μ b + 1` times and
propagates the failure of the last attempt. -/
lemma retryLoop_budget {σ : Type} (next : σ → Int × σ) (μ : σ → Nat)
    (P : σ → Prop)
    (hstop : ∀ b, μ b = 0 → (next b).fst = -1)
    (hstep : ∀ b, P b → 0 < μ b →
      (next b).fst ≠ -1 ∧ μ (next b).snd = μ b - 1 ∧ P (next b).snd)
    (es : Nat → GoError) (k : Nat) :
    ∀ (r i : Nat) (b : σ), P b → μ b = r →
      retryLoop next (fun j => some (es j)) (r + 1 + k) b i
        = some (some (es (i + r)), i + r + 1) := by
  intro r
  induction r with
  | zero =>
    intro i b _ hb
    have h1 : 0 + 1 + k = k + 1 := by omega
    rw [h1]
    simp only [retryLoop]
    rw [if_pos (hstop b hb)]
    simp
  | succ r ih =>
    intro i b hP hb
    have h1 : r + 1 + 1 + k = (r + 1 + k) + 1 := by omega
    rw [h1]
    simp only [retryLoop]
    obtain ⟨hne, hdec, hP2⟩ := hstep b hP (by omega)
    rw [if_neg hne, ih (i + 1) (next b).snd hP2 (by omega)]
    have h2 : i + 1 + r = i + (r + 1) := by omega
    rw [h2]

lemma zeroBackoff_stop (z : zeroBackoff) (h : z.cc.remainRetries.toNat = 0) :
    (z.NextBackOff).fst = -1 := by
  unfold zeroBackoff.NextBackOff
  rw [if_neg (by omega)]

lemma zeroBackoff_step (z : zeroBackoff) (h : 0 < z.cc.remainRetries.toNat) :
    (z.NextBackOff).fst ≠ -1 ∧
    (z.NextBackOff).snd.cc.remainRetries.toNat
      = z.cc.remainRetries.toNat - 1 := by
  unfold zeroBackoff.NextBackOff
  rw [if_pos (by omega)]
  exact ⟨by norm_num, by dsimp only; omega⟩

lemma constantBackoff_stop (c : constantBackoff)
    (h : c.cc.remainRetries.toNat = 0) : (c.NextBackOff).fst = -1 := by
  unfold constantBackoff.NextBackOff
  rw [if_neg (by omega)]

lemma constantBackoff_step (c : constantBackoff) (hiv : 0 ≤ c.interval)
    (h : 0 < c.cc.remainRetries.toNat) :
    (c.NextBackOff).fst ≠ -1 ∧
    (c.NextBackOff).snd.cc.remainRetries.toNat
      = c.cc.remainRetries.toNat - 1 ∧
    0 ≤ (c.NextBackOff).snd.interval := by
  unfold constantBackoff.NextBackOff
  rw [if_pos (by omega)]
  exact ⟨by dsimp only; omega, by dsimp only; omega, hiv⟩

/-- C6: under a retry policy with `maxRetries = r ≥ 0` — no-delay mode, or
fixed-delay mode with a (nonnegative) interval — a task that fails on every
attempt is invoked exactly `r + 1` times and the wrapper propagates the
failure produced by the last attempt (`es r`), for any surplus fuel `k`.
(`group.Go` builds a fresh `NewZeroBackoff`/`NewConstantBackoff` per
invocation of the wrapped task and hands it to `backoff.Retry`, here
`retryLoop`; the guarded recording of that propagated failure is settled
separately, see the C1 theorem.) -/
theorem C6_retry_budget (r : Nat) (iv : Int) (hiv : 0 ≤ iv)
    (es : Nat → GoError) (k : Nat) :
    retryLoop zeroBackoff.NextBackOff (fun j => some (es j)) (r + 1 + k)
        (NewZeroBackoff (r : Int)) 0 = some (some (es r), r + 1) ∧
    retryLoop constantBackoff.NextBackOff (fun j => some (es j)) (r + 1 + k)
        (NewConstantBackoff (r : Int) iv) 0 = some (some (es r), r + 1) := by
  constructor
  · have h := retryLoop_budget zeroBackoff.NextBackOff
      (fun z => z.cc.remainRetries.toNat) (fun _ => True)
      zeroBackoff_stop
      (fun b _ hb => ⟨(zeroBackoff_step b hb).1, (zeroBackoff_step b hb).2,
        trivial⟩)
      es k r 0 (NewZeroBackoff (r : Int)) trivial (by simp [NewZeroBackoff])
    simpa using h
  · have h := retryLoop_budget constantBackoff.NextBackOff
      (fun c => c.cc.remainRetries.toNat) (fun c => 0 ≤ c.interval)
      constantBackoff_stop
      (fun b hP hb => ⟨(constantBackoff_step b hP hb).1,
        (constantBackoff_step b hP hb).2.1, (constantBackoff_step b hP hb).2.2⟩)
      es k r 0 (NewConstantBackoff (r : Int) iv) hiv
      (by simp [NewConstantBackoff])
    simpa using h

/-- Closed witness for the C6 theorem: `maxRetries = 2`, interval `7`,
distinct failures per attempt — three attempts, last failure propagated. -/
theorem C6_retry_budget_witness :
    (0 : Int) ≤ 7 ∧
    (retryLoop zeroBackoff.NextBackOff
        (fun j => some (GoError.taskErr j)) (2 + 1 + 0)
        (NewZeroBackoff (2 : Int)) 0 = some (some (GoError.taskErr 2), 2 + 1) ∧
      retryLoop constantBackoff.NextBackOff
        (fun j => some (GoError.taskErr j)) (2 + 1 + 0)
        (NewConstantBackoff (2 : Int) 7) 0
          = some (some (GoError.taskErr 2), 2 + 1)) :=
  ⟨by norm_num, C6_retry_budget 2 7 (by norm_num) (fun j => GoError.taskErr j) 0⟩

/-! ## Budget-rule, reset and negative-budget lemmas -/

lemma zeroBackoff_nonpos_next (z : zeroBackoff)
    (h : z.cc.remainRetries ≤ 0) : z.NextBackOff = (-1, z) := by
  unfold zeroBackoff.NextBackOff
  rw [if_neg (by omega)]

lemma constantBackoff_nonpos_next (c : constantBackoff)
    (h : c.cc.remainRetries ≤ 0) : c.NextBackOff = (-1, c) := by
  unfold constantBackoff.NextBackOff
  rw [if_neg (by omega)]

lemma exponentialBackoff_nonpos_next {σ : Type} (ebNext : σ → Int × σ)
    (e : exponentialBackoff σ) (h : e.cc.remainRetries ≤ 0) :
    e.NextBackOff ebNext = (-1, e) := by
  unfold exponentialBackoff.NextBackOff
  rw [if_neg (by omega)]

lemma zeroSeq_nonpos (n : Nat) (z : zeroBackoff)
    (h : z.cc.remainRetries ≤ 0) : zeroSeq n z = List.replicate n (-1) := by
  induction n with
  | zero => rfl
  | succ n ih =>
    show (z.NextBackOff).fst :: zeroSeq n (z.NextBackOff).snd = _
    rw [zeroBackoff_nonpos_next z h, List.replicate_succ]
    exact congrArg (List.cons (-1)) ih

lemma constSeq_nonpos (n : Nat) (c : constantBackoff)
    (h : c.cc.remainRetries ≤ 0) : constSeq n c = List.replicate n (-1) := by
  induction n with
  | zero => rfl
  | succ n ih =>
    show (c.NextBackOff).fst :: constSeq n (c.NextBackOff).snd = _
    rw [constantBackoff_nonpos_next c h, List.replicate_succ]
    exact congrArg (List.cons (-1)) ih

lemma expoSeq_nonpos {σ : Type} (ebNext : σ → Int × σ) (n : Nat)
    (e : exponentialBackoff σ) (h : e.cc.remainRetries ≤ 0) :
    expoSeq ebNext n e = List.replicate n (-1) := by
  induction n with
  | zero => rfl
  | succ n ih =>
    show (e.NextBackOff ebNext).fst :: expoSeq ebNext n (e.NextBackOff ebNext).snd = _
    rw [exponentialBackoff_nonpos_next ebNext e h, List.replicate_succ]
    exact congrArg (List.cons (-1)) ih

/-- C7: the common attempt-budget rule for all three strategies, over budget
states with a nonnegative remaining-attempts counter (every state reachable
from a construction with `maxRetries ≥ 0`): a zero counter makes
`NextBackOff` return the stop signal `-1` with the state unchanged; a nonzero
counter is decremented by one while `NextBackOff` returns `0` (no-delay), the
configured interval unchanged across attempts (fixed-delay), or the external
exponential curve's next value (exponential-delay); and a fresh instance with
`maxRetries = 0` answers stop already on its first call, so the retry wrapper
never retries. -/
theorem C7_attempt_budget_rule {σ : Type} (z : zeroBackoff)
    (c : constantBackoff) (ebNext : σ → Int × σ) (e : exponentialBackoff σ)
    (iv : Int) (eb0 : σ)
    (hz : 0 ≤ z.cc.remainRetries) (hc : 0 ≤ c.cc.remainRetries)
    (he : 0 ≤ e.cc.remainRetries) :
    (z.cc.remainRetries = 0 → z.NextBackOff = (-1, z)) ∧
    (z.cc.remainRetries ≠ 0 → z.NextBackOff
      = (0, { z with cc := { z.cc with
          remainRetries := z.cc.remainRetries - 1 } })) ∧
    (c.cc.remainRetries = 0 → c.NextBackOff = (-1, c)) ∧
    (c.cc.remainRetries ≠ 0 → c.NextBackOff
      = (c.interval, { c with cc := { c.cc with
          remainRetries := c.cc.remainRetries - 1 } })) ∧
    (e.cc.remainRetries = 0 → e.NextBackOff ebNext = (-1, e)) ∧
    (e.cc.remainRetries ≠ 0 → e.NextBackOff ebNext
      = ((ebNext e.eb).fst,
        { eb := (ebNext e.eb).snd,
          cc := { e.cc with remainRetries := e.cc.remainRetries - 1 } })) ∧
    (NewZeroBackoff 0).NextBackOff = (-1, NewZeroBackoff 0) ∧
    (NewConstantBackoff 0 iv).NextBackOff = (-1, NewConstantBackoff 0 iv) ∧
    (NewExponentialBackoff 0 eb0).NextBackOff ebNext
      = (-1, NewExponentialBackoff 0 eb0) := by
  refine ⟨fun h0 => zeroBackoff_nonpos_next z (by omega), fun h0 => ?_,
    fun h0 => constantBackoff_nonpos_next c (by omega), fun h0 => ?_,
    fun h0 => exponentialBackoff_nonpos_next ebNext e (by omega), fun h0 => ?_,
    zeroBackoff_nonpos_next _ (by norm_num [NewZeroBackoff]),
    constantBackoff_nonpos_next _ (by norm_num [NewConstantBackoff]),
    exponentialBackoff_nonpos_next _ _ (by norm_num [NewExponentialBackoff])⟩
  · unfold zeroBackoff.NextBackOff
    rw [if_pos (by omega)]
  · unfold constantBackoff.NextBackOff
    rw [if_pos (by omega)]
  · unfold exponentialBackoff.NextBackOff
    rw [if_pos (by omega)]

/-- Closed witness for the C7 theorem at concrete states (budget `1` each,
interval `4`, a toy exponential curve on `σ = Int`). -/
theorem C7_attempt_budget_rule_witness :
    ((0 : Int) ≤ 1 ∧ (0 : Int) ≤ 1 ∧ (0 : Int) ≤ 1) ∧
    (((1 : Int) = 0 → zeroBackoff.NextBackOff ⟨⟨1, 1⟩⟩ = (-1, ⟨⟨1, 1⟩⟩)) ∧
     ((1 : Int) ≠ 0 → zeroBackoff.NextBackOff ⟨⟨1, 1⟩⟩ = (0, ⟨⟨1, 1 - 1⟩⟩)) ∧
     ((1 : Int) = 0 → constantBackoff.NextBackOff ⟨4, ⟨1, 1⟩⟩
        = (-1, ⟨4, ⟨1, 1⟩⟩)) ∧
     ((1 : Int) ≠ 0 → constantBackoff.NextBackOff ⟨4, ⟨1, 1⟩⟩
        = (4, ⟨4, ⟨1, 1 - 1⟩⟩)) ∧
     ((1 : Int) = 0 → exponentialBackoff.NextBackOff (fun s => (s, s + 1))
        ⟨9, ⟨1, 1⟩⟩ = (-1, ⟨9, ⟨1, 1⟩⟩)) ∧
     ((1 : Int) ≠ 0 → exponentialBackoff.NextBackOff (fun s => (s, s + 1))
        ⟨9, ⟨1, 1⟩⟩ = (9, ⟨9 + 1, ⟨1, 1 - 1⟩⟩)) ∧
     zeroBackoff.NextBackOff (NewZeroBackoff 0) = (-1, NewZeroBackoff 0) ∧
     constantBackoff.NextBackOff (NewConstantBackoff 0 4)
        = (-1, NewConstantBackoff 0 4) ∧
     exponentialBackoff.NextBackOff (fun s => (s, s + 1))
        (NewExponentialBackoff 0 7) = (-1, NewExponentialBackoff 0 7)) :=
  ⟨⟨by norm_num, by norm_num, by norm_num⟩,
    C7_attempt_budget_rule ⟨⟨1, 1⟩⟩ ⟨4, ⟨1, 1⟩⟩ (fun s => (s, s + 1))
      ⟨9, ⟨1, 1⟩⟩ 4 7 (by norm_num) (by norm_num) (by norm_num)⟩

lemma zeroBackoff_reset_eq (z : zeroBackoff) :
    z.Reset = NewZeroBackoff z.cc.maxRetries := rfl

lemma constantBackoff_reset_eq (c : constantBackoff) :
    c.Reset = NewConstantBackoff c.cc.maxRetries c.interval := rfl

lemma exponentialBackoff_reset_eq {σ : Type} (ebReset : σ → σ)
    (e : exponentialBackoff σ) :
    e.Reset ebReset = NewExponentialBackoff e.cc.maxRetries (ebReset e.eb) := rfl

/-- C9: `Reset` restores the remaining-attempts counter to the configured
maximum and resets the strategy-specific state, so the results of any number
`n` of `NextBackOff` calls after a `Reset` coincide with those of a freshly
constructed instance of the same configuration (same `maxRetries`, same
interval; for the exponential strategy, given that the external curve's own
reset yields its freshly-constructed state `eb0`). -/
theorem C9_reset_restores_fresh {σ : Type} (n : Nat) (z : zeroBackoff)
    (c : constantBackoff) (ebNext : σ → Int × σ) (ebReset : σ → σ) (eb0 : σ)
    (e : exponentialBackoff σ) (hres : ebReset e.eb = eb0) :
    (z.Reset).cc.remainRetries = z.cc.maxRetries ∧
    (c.Reset).cc.remainRetries = c.cc.maxRetries ∧
    (e.Reset ebReset).cc.remainRetries = e.cc.maxRetries ∧
    zeroSeq n z.Reset = zeroSeq n (NewZeroBackoff z.cc.maxRetries) ∧
    constSeq n c.Reset
      = constSeq n (NewConstantBackoff c.cc.maxRetries c.interval) ∧
    expoSeq ebNext n (e.Reset ebReset)
      = expoSeq ebNext n (NewExponentialBackoff e.cc.maxRetries eb0) := by
  refine ⟨rfl, rfl, rfl, rfl, rfl, ?_⟩
  rw [exponentialBackoff_reset_eq, hres]

/-- Closed witness for the C9 theorem: strategies mid-consumption (budget
`0` of maximum `2` left), reset and replayed for `3` calls. -/
theorem C9_reset_restores_fresh_witness :
    (fun _ : Int => (42 : Int)) 7 = 42 ∧
    ((zeroBackoff.Reset ⟨⟨2, 0⟩⟩).cc.remainRetries = 2 ∧
     (constantBackoff.Reset ⟨5, ⟨2, 0⟩⟩).cc.remainRetries = 2 ∧
     (exponentialBackoff.Reset (fun _ => (42 : Int))
        ⟨7, ⟨2, 0⟩⟩).cc.remainRetries = 2 ∧
     zeroSeq 3 (zeroBackoff.Reset ⟨⟨2, 0⟩⟩) = zeroSeq 3 (NewZeroBackoff 2) ∧
     constSeq 3 (constantBackoff.Reset ⟨5, ⟨2, 0⟩⟩)
        = constSeq 3 (NewConstantBackoff 2 5) ∧
     expoSeq (fun s => (s, s * 2)) 3
        (exponentialBackoff.Reset (fun _ => (42 : Int)) ⟨7, ⟨2, 0⟩⟩)
        = expoSeq (fun s => (s, s * 2)) 3 (NewExponentialBackoff 2 42)) :=
  ⟨rfl, C9_reset_restores_fresh 3 ⟨⟨2, 0⟩⟩ ⟨5, ⟨2, 0⟩⟩ (fun s => (s, s * 2))
    (fun _ => (42 : Int)) 42 ⟨7, ⟨2, 0⟩⟩ rfl⟩

/-- C10: a backoff constructed from a negative `maxRetries` starts with a
negative remaining-attempts counter, and — for each of the three strategies —
every `NextBackOff` call returns the stop signal without decrementing (the
state is unchanged), so the observable call results coincide with those of a
`maxRetries = 0` construction and the retry wrapper invokes the
always-failing task exactly once, propagating its first failure. -/
theorem C10_negative_budget_like_zero {σ : Type} (m : Int) (hm : m < 0)
    (iv : Int) (ebNext : σ → Int × σ) (eb0 : σ) (es : Nat → GoError)
    (n fuel : Nat) :
    (NewZeroBackoff m).cc.remainRetries = m ∧
    (NewZeroBackoff m).NextBackOff = (-1, NewZeroBackoff m) ∧
    (NewConstantBackoff m iv).NextBackOff = (-1, NewConstantBackoff m iv) ∧
    (NewExponentialBackoff m eb0).NextBackOff ebNext
      = (-1, NewExponentialBackoff m eb0) ∧
    zeroSeq n (NewZeroBackoff m) = zeroSeq n (NewZeroBackoff 0) ∧
    constSeq n (NewConstantBackoff m iv) = constSeq n (NewConstantBackoff 0 iv) ∧
    expoSeq ebNext n (NewExponentialBackoff m eb0)
      = expoSeq ebNext n (NewExponentialBackoff 0 eb0) ∧
    retryLoop zeroBackoff.NextBackOff (fun j => some (es j)) (fuel + 1)
        (NewZeroBackoff m) 0 = some (some (es 0), 1) ∧
    retryLoop constantBackoff.NextBackOff (fun j => some (es j)) (fuel + 1)
        (NewConstantBackoff m iv) 0 = some (some (es 0), 1) ∧
    retryLoop (exponentialBackoff.NextBackOff ebNext) (fun j => some (es j))
        (fuel + 1) (NewExponentialBackoff m eb0) 0 = some (some (es 0), 1) := by
  have hz := zeroBackoff_nonpos_next (NewZeroBackoff m) (by simpa using hm.le)
  have hc := constantBackoff_nonpos_next (NewConstantBackoff m iv)
    (by simpa using hm.le)
  have he := exponentialBackoff_nonpos_next ebNext (NewExponentialBackoff m eb0)
    (by simpa using hm.le)
  refine ⟨rfl, hz, hc, he, ?_, ?_, ?_, ?_, ?_, ?_⟩
  · rw [zeroSeq_nonpos n _ (by simpa using hm.le),
      zeroSeq_nonpos n _ (by norm_num [NewZeroBackoff])]
  · rw [constSeq_nonpos n _ (by simpa using hm.le),
      constSeq_nonpos n _ (by norm_num [NewConstantBackoff])]
  · rw [expoSeq_nonpos ebNext n _ (by simpa using hm.le),
      expoSeq_nonpos ebNext n _ (by norm_num [NewExponentialBackoff])]
  · simp only [retryLoop]
    rw [if_pos (by rw [hz])]
  · simp only [retryLoop]
    rw [if_pos (by rw [hc])]
  · simp only [retryLoop]
    rw [if_pos (by rw [he])]

/-- Closed witness for the C10 theorem at `maxRetries = -1`. -/
theorem C10_negative_budget_like_zero_witness :
    (-1 : Int) < 0 ∧
    ((NewZeroBackoff (-1)).cc.remainRetries = -1 ∧
     (NewZeroBackoff (-1)).NextBackOff = (-1, NewZeroBackoff (-1)) ∧
     (NewConstantBackoff (-1) 6).NextBackOff = (-1, NewConstantBackoff (-1) 6) ∧
     (NewExponentialBackoff (-1) (3 : Int)).NextBackOff (fun s => (s, s + s))
        = (-1, NewExponentialBackoff (-1) (3 : Int)) ∧
     zeroSeq 4 (NewZeroBackoff (-1)) = zeroSeq 4 (NewZeroBackoff 0) ∧
     constSeq 4 (NewConstantBackoff (-1) 6) = constSeq 4 (NewConstantBackoff 0 6) ∧
     expoSeq (fun s => (s, s + s)) 4 (NewExponentialBackoff (-1) (3 : Int))
        = expoSeq (fun s => (s, s + s)) 4 (NewExponentialBackoff 0 (3 : Int)) ∧
     retryLoop zeroBackoff.NextBackOff (fun j => some (GoError.taskErr j))
        (2 + 1) (NewZeroBackoff (-1)) 0 = some (some (GoError.taskErr 0), 1) ∧
     retryLoop constantBackoff.NextBackOff (fun j => some (GoError.taskErr j))
        (2 + 1) (NewConstantBackoff (-1) 6) 0
          = some (some (GoError.taskErr 0), 1) ∧
     retryLoop (exponentialBackoff.NextBackOff (fun s => (s, s + s)))
        (fun j => some (GoError.taskErr j)) (2 + 1)
        (NewExponentialBackoff (-1) (3 : Int)) 0
          = some (some (GoError.taskErr 0), 1)) :=
  ⟨by norm_num, C10_negative_budget_like_zero (-1) (by norm_num) 6
    (fun s => (s, s + s)) (3 : Int) (fun j => GoError.taskErr j) 4 2⟩

/-- C6 as literally stated fails on the code at a concrete input, in two
ways: (a) the failure the retry wrapper propagates never "gets recorded" —
after a unit completes with the wrapper's propagated failure, the collector
`Wait()` returns is still empty, because the guarded insertion never fires;
(b) in fixed-delay mode an interval of `-1` (a legal `time.Duration`)
collides with the `backoff.Stop` sentinel, so a task with `maxRetries = 2`
that always fails is invoked once, not `3` times. -/
theorem C6_as_stated_fails :
    (groupWait (groupRun
        (NewGroupWithContext 0 true (some ⟨RetryMode.Constant, 5, 2, false⟩) 3)
        [⟨true, some (GoError.taskErr 2)⟩])).fst = some [] ∧
    retryLoop constantBackoff.NextBackOff (fun j => some (GoError.taskErr j)) 3
        (NewConstantBackoff 2 (-1)) 0
      = some (some (GoError.taskErr 0), 1) := ⟨rfl, rfl⟩

end Errgroup
